import Mathlib

/-!
Shallow embedding of the conversation state synchronization core of a
chat client: the record transform layer (`dataTransforms`) and the chat
state hook (`useChat`), together with theorems checking the
specification's claims against this embedding.

Modelling conventions:
* JS `Date` values are modelled as `Nat` milliseconds since the epoch.
  `toISOString` on a `Date` always produces a string that `new Date`
  parses back to the same millisecond value, so a serialized timestamp
  is modelled by `DateStr.valid ms`.
* A date string arriving from the persistent store is modelled by
  `DateStr`: `missing` covers `null`/`undefined`/`""` (all falsy in the
  source's `parseDate`), `invalid` covers a non-empty string on which
  `new Date` yields `NaN`, and `valid ms` a string parsing to `ms`.
* The JSON-encoded `sources` column is modelled by `JsonStr`: `absent`
  covers `null`/`undefined`/`""`, `invalid` a string on which
  `JSON.parse` throws, and `arr l` a JSON string-array literal, which
  `JSON.stringify`/`JSON.parse` round-trip exactly.
* JS strings are Lean `String`s; `substring(0, n)` is `strTake`.
* Optional TS fields: `isLoading?: boolean` is a `Bool` with the absent
  field identified with `false` (the only way the source reads it);
  `sources?: string[]` is `Option (List String)` where `none` is the
  absent field and `some []` the empty array, which the source does
  distinguish.
-/

/-- Message role, the closed two-value set `'user' | 'assistant'`. -/
inductive MsgType where
  | user
  | assistant
deriving DecidableEq, Repr

/-- Domain `Message` from `types/chat.ts`. -/
structure Message where
  id : String
  type : MsgType
  content : String
  timestamp : Nat
  isLoading : Bool := false
  sources : Option (List String) := none
deriving DecidableEq, Repr

/-- Domain `Conversation` from `types/chat.ts`. -/
structure Conversation where
  id : String
  title : String
  messages : List Message
  createdAt : Nat
  updatedAt : Nat
deriving DecidableEq, Repr

/-- A date string field of a persistent record, classified by how the
source's `parseDate` handles it. -/
inductive DateStr where
  | missing
  | invalid (raw : String)
  | valid (ms : Nat)
deriving DecidableEq, Repr

/-- A JSON string field of a persistent record, classified by how the
source's `parseJsonSafely` handles it. -/
inductive JsonStr where
  | absent
  | invalid (raw : String)
  | arr (l : List String)
deriving DecidableEq, Repr

/-- `DbConversation` record shape from `dataTransforms`. -/
structure DbConversation where
  id : String
  user_id : String
  title : String
  created_at : DateStr
  updated_at : DateStr
deriving DecidableEq, Repr

/-- `DbMessage` record shape from `dataTransforms`.  The `type` column is
kept as a raw string because `transformDbMessage` validates it at
runtime. -/
structure DbMessage where
  id : String
  conversation_id : String
  user_id : String
  type : String
  content : String
  timestamp : DateStr
  sources : JsonStr
deriving DecidableEq, Repr

/-- `parseDate`: null/undefined/empty and unparsable strings yield
`none`, otherwise the parsed time. -/
def parseDate : DateStr → Option Nat
  | .missing => none
  | .invalid _ => none
  | .valid ms => some ms

/-- `parseJsonSafely` specialized to `string[]` with a fallback list:
absent or unparsable input yields the fallback. -/
def parseJsonSafely (s : JsonStr) (fallback : List String) : List String :=
  match s with
  | .absent => fallback
  | .invalid _ => fallback
  | .arr l => l

/-- `transformDbConversation`.  The source reads the ambient clock
(`new Date()`) for its timestamp fallback; that clock is the explicit
`now` argument. -/
def transformDbConversation (now : Nat) (c : DbConversation) : Option Conversation :=
  if c.id = "" ∨ c.title = "" then
    none
  else
    some { id := c.id
           title := c.title
           messages := []
           createdAt := (parseDate c.created_at).getD now
           updatedAt := (parseDate c.updated_at).getD now }

/-- `transformDbMessage`. -/
def transformDbMessage (m : DbMessage) : Option Message :=
  if m.id = "" ∨ m.content = "" ∨ m.type = "" then
    none
  else if m.type ≠ "user" ∧ m.type ≠ "assistant" then
    none
  else
    match parseDate m.timestamp with
    | none => none
    | some ts =>
        let sources := parseJsonSafely m.sources []
        some { id := m.id
               type := if m.type = "user" then .user else .assistant
               content := m.content
               timestamp := ts
               isLoading := false
               sources := if sources.length > 0 then some sources else none }

/-- `transformDbConversations`, the batch loop that keeps only records
whose transform succeeds. -/
def transformDbConversations (now : Nat) : List DbConversation → List Conversation
  | [] => []
  | c :: rest =>
      match transformDbConversation now c with
      | some t => t :: transformDbConversations now rest
      | none => transformDbConversations now rest

/-- `transformDbMessages`, the batch loop that keeps only records whose
transform succeeds. -/
def transformDbMessages : List DbMessage → List Message
  | [] => []
  | m :: rest =>
      match transformDbMessage m with
      | some t => t :: transformDbMessages rest
      | none => transformDbMessages rest

/-- The role string written for a message type (`m.type === 'user' ?
'user' : 'assistant'`). -/
def roleOf : MsgType → String
  | .user => "user"
  | .assistant => "assistant"

/-- `createDbMessage`: serialize a domain message for persistence.
`timestamp.toISOString()` always produces a valid date string for the
same instant; `sources` is JSON-encoded only when present and
non-empty, otherwise the column is null. -/
def createDbMessage (message : Message) (conversationId userId : String) : DbMessage :=
  { id := message.id
    conversation_id := conversationId
    user_id := userId
    type := roleOf message.type
    content := message.content
    timestamp := .valid message.timestamp
    sources :=
      match message.sources with
      | some l => if l.length > 0 then .arr l else .absent
      | none => .absent }

/-- `firstMessage.substring(0, n)`: the first `n` characters. -/
def strTake (s : String) (n : Nat) : String :=
  String.mk (s.data.take n)

/-- JS `String.prototype.trim()`: strip leading and trailing
whitespace. -/
def strTrim (s : String) : String :=
  String.mk (((s.data.dropWhile Char.isWhitespace).reverse.dropWhile
    Char.isWhitespace).reverse)

/-- The title derivation inside `updateConversationTitle`. -/
def deriveTitle (firstMessage : String) : String :=
  if firstMessage.length > 50 then strTake firstMessage 47 ++ "..." else firstMessage

/-- `MAX_CONTEXT_MESSAGES`. -/
def MAX_CONTEXT_MESSAGES : Nat := 20

/-- A role/content pair sent to the AI generation provider. -/
structure RoleContent where
  role : String
  content : String
deriving DecidableEq, Repr

/-- The `messagesForAI` construction in `sendMessage`: the last
`MAX_CONTEXT_MESSAGES` prior messages (`slice(-20)`) mapped to
role/content pairs, with the new user message appended last. -/
def buildMessagesForAI (prior : List Message) (content : String) : List RoleContent :=
  (prior.drop (prior.length - MAX_CONTEXT_MESSAGES)).map
      (fun m => { role := roleOf m.type, content := m.content })
    ++ [{ role := "user", content := content }]

/-- An observable external call issued by the hook: persistent-store
operations, the AI streaming call (with the exact message sequence it
was given), and user-facing toast notifications. -/
inductive ExtCall where
  | listMessages (conversationId : String)
  | deleteMessage (messageId : String)
  | deleteConversationDb (conversationId : String)
  | createConversationDb (conversationId : String)
  | createMessageDb (messageId : String)
  | updateTitleDb (conversationId : String) (title : String)
  | streamText (messages : List RoleContent)
  | toast (title description : String)
deriving DecidableEq, Repr

/-- The `useChat` hook state observed by the UI: the conversation list,
the selected conversation id, the busy flag and the authentication
status (`isAuthenticated && user` is collapsed to one flag since the
source only ever checks them together). -/
structure ChatState where
  conversations : List Conversation
  currentConversationId : Option String
  isLoading : Bool
  isAuthenticated : Bool
deriving DecidableEq, Repr

/-- The `setConversations(prev => prev.map(c => c.id === cid ? f c : c))`
update pattern used throughout the hook. -/
def overConv (cid : String) (f : Conversation → Conversation) (s : ChatState) : ChatState :=
  { s with conversations := s.conversations.map fun c => if c.id = cid then f c else c }

/-- The `{ ...c, messages: [...c.messages, m], updatedAt: now }` update. -/
def appendMsg (cid : String) (m : Message) (now : Nat) (s : ChatState) : ChatState :=
  overConv cid (fun c => { c with messages := c.messages ++ [m], updatedAt := now }) s

/-- The per-chunk streaming callback update: replace the placeholder's
content wholesale with the accumulator, keeping `isLoading` true. -/
def applyChunk (cid aid : String) (acc : String) (now : Nat) (s : ChatState) : ChatState :=
  overConv cid
    (fun c =>
      { c with
        messages := c.messages.map fun m =>
          if m.id = aid then { m with content := acc, isLoading := true } else m
        updatedAt := now }) s

/-- The finalization update after `streamText` returns: full content,
`isLoading` cleared, and the provider's citation list attached verbatim
(`sources` in the source is `result?.sources || []`, a concrete and
possibly empty array). -/
def finalizeAssistant (cid aid : String) (text : String) (srcs : List String) (now : Nat)
    (s : ChatState) : ChatState :=
  overConv cid
    (fun c =>
      { c with
        messages := c.messages.map fun m =>
          if m.id = aid then
            { m with content := text, isLoading := false, sources := some srcs }
          else m
        updatedAt := now }) s

/-- Oracle for one `createNewConversation` call: the generated id, the
ambient clock, and whether the remote insert succeeds (consulted only
when authenticated). -/
structure NewConvEnv where
  id : String
  now : Nat
  dbOk : Bool
deriving DecidableEq, Repr

/-- `createNewConversation`: builds the conversation, attempts a remote
insert when authenticated, and on remote failure warns and falls back
to the identical local-only conversation. -/
def createNewConversation (auth : Bool) (env : NewConvEnv) :
    Conversation × List ExtCall :=
  let convo : Conversation :=
    { id := env.id, title := "New Chat", messages := []
      createdAt := env.now, updatedAt := env.now }
  if auth then
    if env.dbOk then
      (convo, [.createConversationDb env.id])
    else
      (convo,
        [.createConversationDb env.id,
         .toast "Warning" "Failed to save conversation to database. Working in offline mode."])
  else
    (convo, [])

/-- `startNewConversation`: create, prepend, select.  Returns the list
of in-memory state snapshots (one per `set*` call, in order; the last
one is the final state) together with the external calls issued. -/
def startNewConversation (s : ChatState) (env : NewConvEnv) :
    List ChatState × List ExtCall :=
  let (convo, log) := createNewConversation s.isAuthenticated env
  let s1 := { s with conversations := convo :: s.conversations }
  let s2 := { s1 with currentConversationId := some convo.id }
  ([s1, s2], log)

/-- `selectConversation`: pure cursor change. -/
def selectConversation (s : ChatState) (id : String) : List ChatState × List ExtCall :=
  ([{ s with currentConversationId := some id }], [])

/-- `deleteConversation`.  `remoteMsgIds` are the ids of the persisted
messages the remote `list` call returns for this conversation;
`failAt = some k` means the k-th remote call of the sequence
(0 = the list call, 1..n = the message deletes, n+1 = the conversation
delete) throws, `none` means every remote call succeeds.  The local
removal and the selection fallback sit inside the `try` after the
remote calls, so a remote failure skips them both and only reports the
error. -/
def deleteConversation (s : ChatState) (id : String) (remoteMsgIds : List String)
    (failAt : Option Nat) : List ChatState × List ExtCall :=
  let calls : List ExtCall :=
    .listMessages id :: remoteMsgIds.map .deleteMessage ++ [.deleteConversationDb id]
  let removeLocal : List ChatState :=
    let s1 := { s with conversations := s.conversations.filter fun c => ¬ c.id = id }
    if s.currentConversationId = some id then
      let remaining := s.conversations.filter fun c => ¬ c.id = id
      [s1, { s1 with currentConversationId := remaining.head?.map Conversation.id }]
    else
      [s1]
  if s.isAuthenticated then
    match failAt with
    | some k =>
        if k < calls.length then
          ([], calls.take (k + 1) ++ [.toast "Error" "Failed to delete conversation"])
        else
          (removeLocal, calls)
    | none => (removeLocal, calls)
  else
    (removeLocal, [])

/-- `updateConversationTitle`: derive the title, fire-and-forget remote
update when authenticated (failure logged only, never surfaced), then
update memory. -/
def updateConversationTitle (s : ChatState) (conversationId : String)
    (firstMessage : String) (now : Nat) : List ChatState × List ExtCall :=
  let title := deriveTitle firstMessage
  let log : List ExtCall :=
    if s.isAuthenticated then [.updateTitleDb conversationId title] else []
  ([overConv conversationId (fun c => { c with title := title, updatedAt := now }) s], log)

/-- `addMessage`: best-effort remote insert when authenticated (failure
warns), then the in-memory append always happens. -/
def addMessage (s : ChatState) (conversationId : String) (message : Message)
    (dbOk : Bool) (now : Nat) : List ChatState × List ExtCall :=
  let log : List ExtCall :=
    if s.isAuthenticated then
      if dbOk then [.createMessageDb message.id]
      else
        [.createMessageDb message.id,
         .toast "Warning" "Failed to save message to database. Your conversation may not persist."]
    else []
  ([appendMsg conversationId message now s], log)

/-- Outcome of the `blink.ai.streamText` call: either it completes after
delivering `chunks` (with an optional citation list and a remote-save
outcome for the finalized message), or it throws after delivering
`chunksBefore`. -/
inductive StreamOutcome where
  | ok (chunks : List String) (srcs : Option (List String)) (dbSaveOk : Bool)
  | err (chunksBefore : List String)
deriving DecidableEq, Repr

/-- Oracle for one `sendMessage` run: the ambient clock, the generated
ids, the remote outcomes of the intermediate persistence calls, and the
streaming outcome. -/
structure SendEnv where
  now : Nat
  newConv : NewConvEnv
  userMsgId : String
  userMsgDbOk : Bool
  assistantMsgId : String
  errorMsgId : String
  outcome : StreamOutcome
deriving DecidableEq, Repr

/-- The fixed text of the error assistant message appended by
`sendMessage`'s catch block. -/
def errorText : String :=
  "Sorry, I encountered an error while processing your request. Please try again."

/-- Fold the streaming chunks: each chunk extends the accumulator and
rewrites the placeholder's content wholesale.  Returns the final state,
the snapshot after each chunk, and the final accumulator. -/
def foldChunks (cid aid : String) (now : Nat) :
    String → List String → ChatState → ChatState × List ChatState × String
  | acc, [], s => (s, [], acc)
  | acc, ch :: rest, s =>
      let acc2 := acc ++ ch
      let s2 := applyChunk cid aid acc2 now s
      let (sf, snaps, accf) := foldChunks cid aid now acc2 rest s2
      (sf, s2 :: snaps, accf)

/-- The user `Message` built at the top of `sendMessage`. -/
def userMsgOf (content : String) (env : SendEnv) : Message :=
  { id := env.userMsgId, type := .user, content := content, timestamp := env.now }

/-- The empty assistant placeholder appended before streaming starts. -/
def assistantPlaceholder (env : SendEnv) : Message :=
  { id := env.assistantMsgId, type := .assistant, content := ""
    timestamp := env.now, isLoading := true }

/-- The fixed-text error message appended by the catch block. -/
def errorMessageOf (env : SendEnv) : Message :=
  { id := env.errorMsgId, type := .assistant, content := errorText
    timestamp := env.now, isLoading := false }

/-- State after `addMessage` has appended the user message. -/
def stateAfterUser (s : ChatState) (cid content : String) (env : SendEnv) : ChatState :=
  appendMsg cid (userMsgOf content env) env.now s

/-- The (possibly empty) snapshot list of the first-message title
update. -/
def titleUpdated (s : ChatState) (conversation : Conversation) (content : String)
    (env : SendEnv) : List ChatState :=
  if conversation.messages.length = 0 then
    (updateConversationTitle (stateAfterUser s conversation.id content env)
      conversation.id content env.now).1
  else []

/-- State after the optional title update. -/
def stateAfterTitle (s : ChatState) (conversation : Conversation) (content : String)
    (env : SendEnv) : ChatState :=
  (titleUpdated s conversation content env).getLastD
    (stateAfterUser s conversation.id content env)

/-- State after the assistant placeholder has been appended. -/
def stateAfterPlaceholder (s : ChatState) (conversation : Conversation) (content : String)
    (env : SendEnv) : ChatState :=
  appendMsg conversation.id (assistantPlaceholder env) env.now
    (stateAfterTitle s conversation content env)

/-- The chunk fold run from the placeholder state with an empty
accumulator. -/
def streamFold (s : ChatState) (conversation : Conversation) (content : String)
    (env : SendEnv) (chunks : List String) : ChatState × List ChatState × String :=
  foldChunks conversation.id env.assistantMsgId env.now "" chunks
    (stateAfterPlaceholder s conversation content env)

/-- State after the finalization update of a completed stream. -/
def stateAfterFinalize (s : ChatState) (conversation : Conversation) (content : String)
    (env : SendEnv) (chunks : List String) (srcs : Option (List String)) : ChatState :=
  finalizeAssistant conversation.id env.assistantMsgId
    (streamFold s conversation content env chunks).2.2 (srcs.getD []) env.now
    (streamFold s conversation content env chunks).1

/-- State after the catch block has appended the error message. -/
def stateAfterError (s : ChatState) (conversation : Conversation) (content : String)
    (env : SendEnv) (chunks : List String) : ChatState :=
  appendMsg conversation.id (errorMessageOf env) env.now
    (streamFold s conversation content env chunks).1

/-- The body of `sendMessage` after the conversation has been resolved
(`conversation` is the stale object captured before the user message is
appended, exactly as in the source). -/
def sendCore (s : ChatState) (conversation : Conversation) (content : String)
    (env : SendEnv) : List ChatState × List ExtCall :=
  let cid := conversation.id
  let addLog := (addMessage s cid (userMsgOf content env) env.userMsgDbOk env.now).2
  let titleLog : List ExtCall :=
    if conversation.messages.length = 0 then
      (updateConversationTitle (stateAfterUser s cid content env) cid content env.now).2
    else []
  let aiLog : List ExtCall :=
    [.streamText (buildMessagesForAI conversation.messages content)]
  match env.outcome with
  | .ok chunks srcs dbSaveOk =>
      let sE := stateAfterFinalize s conversation content env chunks srcs
      let saveLog : List ExtCall :=
        if s.isAuthenticated then
          if dbSaveOk then [.createMessageDb env.assistantMsgId]
          else
            [.createMessageDb env.assistantMsgId,
             .toast "Warning" "Failed to save response to database."]
        else []
      ([stateAfterUser s cid content env] ++ titleUpdated s conversation content env ++
         [stateAfterPlaceholder s conversation content env] ++
         (streamFold s conversation content env chunks).2.1 ++
         [sE, { sE with isLoading := false }],
       addLog ++ titleLog ++ aiLog ++ saveLog)
  | .err chunksBefore =>
      let sE := stateAfterError s conversation content env chunksBefore
      ([stateAfterUser s cid content env] ++ titleUpdated s conversation content env ++
         [stateAfterPlaceholder s conversation content env] ++
         (streamFold s conversation content env chunksBefore).2.1 ++
         [sE, { sE with isLoading := false }],
       addLog ++ titleLog ++ aiLog ++ [.toast "Error" "Failed to generate response"])

/-- `sendMessage`.  Returns the in-memory state snapshots (one per
`set*` call, in order; empty on the early return) and the external
calls issued. -/
def sendMessage (s : ChatState) (content : String) (env : SendEnv) :
    List ChatState × List ExtCall :=
  if strTrim content = "" then
    ([], [])
  else
    let s0 := { s with isLoading := true }
    match s.currentConversationId.bind
        (fun cid => s.conversations.find? fun c => c.id = cid) with
    | some conversation =>
        let (snaps, log) := sendCore s0 conversation content env
        (s0 :: snaps, log)
    | none =>
        let (convo, newLog) := createNewConversation s.isAuthenticated env.newConv
        let s1 := { s0 with conversations := convo :: s0.conversations }
        let s2 := { s1 with currentConversationId := some convo.id }
        let (snaps, log) := sendCore s2 convo content env
        (s0 :: s1 :: s2 :: snaps, newLog ++ log)

/-- The final state of an operation given its snapshot list. -/
def finalState (s : ChatState) (snaps : List ChatState) : ChatState :=
  snaps.getLastD s

/-- The final state after a `sendMessage` run. -/
def sendFinal (s : ChatState) (content : String) (env : SendEnv) : ChatState :=
  finalState s (sendMessage s content env).1

/-- A public operation of the store, together with the oracle data (the
generated ids, clock readings and remote outcomes) consumed by its
run. -/
inductive Op where
  | startNew (env : NewConvEnv)
  | select (id : String)
  | deleteConv (id : String) (remoteMsgIds : List String) (failAt : Option Nat)
  | send (content : String) (env : SendEnv)
deriving DecidableEq, Repr

/-- Run one operation: its state snapshots and external calls. -/
def applyOp (s : ChatState) : Op → List ChatState × List ExtCall
  | .startNew env => startNewConversation s env
  | .select id => selectConversation s id
  | .deleteConv id remoteMsgIds failAt => deleteConversation s id remoteMsgIds failAt
  | .send content env => sendMessage s content env

/-- The state an operation leaves behind. -/
def opFinal (s : ChatState) (op : Op) : ChatState :=
  finalState s (applyOp s op).1

/-- All intermediate states produced while running a sequence of
operations (excluding the start state). -/
def traceStates (s : ChatState) : List Op → List ChatState
  | [] => []
  | op :: rest => (applyOp s op).1 ++ traceStates (opFinal s op) rest

/-- Every state reachable while running `ops` from `s`, the start state
included. -/
def runStates (s : ChatState) (ops : List Op) : List ChatState :=
  s :: traceStates s ops

/-- The state left after running a whole sequence of operations. -/
def runFinal (s : ChatState) : List Op → ChatState
  | [] => s
  | op :: rest => runFinal (opFinal s op) rest

/-- The store state right after an unauthenticated initialization:
empty list, nothing selected, not busy. -/
def initialState : ChatState :=
  { conversations := [], currentConversationId := none
    isLoading := false, isAuthenticated := false }

/-- How many messages of a conversation are marked loading. -/
def loadingCount (c : Conversation) : Nat :=
  c.messages.countP fun m => m.isLoading

/-- No conversation holds more than one loading message. -/
def atMostOneLoading (s : ChatState) : Prop :=
  ∀ c ∈ s.conversations, loadingCount c ≤ 1

/-- No message of any conversation is marked loading. -/
def noLoading (s : ChatState) : Prop :=
  ∀ c ∈ s.conversations, loadingCount c = 0

instance (s : ChatState) : Decidable (atMostOneLoading s) := by
  unfold atMostOneLoading
  infer_instance

instance (s : ChatState) : Decidable (noLoading s) := by
  unfold noLoading
  infer_instance

/-- Every message id present anywhere in the state. -/
def allMsgIds (s : ChatState) : List String :=
  s.conversations.flatMap fun c => c.messages.map Message.id

/-- No message anywhere in the state carries the id `aid`. -/
def aidFree (aid : String) (s : ChatState) : Prop :=
  ∀ c ∈ s.conversations, ∀ m ∈ c.messages, m.id ≠ aid

/-- Mid-stream shape while the placeholder `aid` streams into the
conversation `cid`: only messages with id `aid` may be loading, each
conversation holds at most one such message, and conversations other
than `cid` hold none. -/
def midStream (cid aid : String) (s : ChatState) : Prop :=
  ∀ c ∈ s.conversations,
    (∀ m ∈ c.messages, m.id ≠ aid → m.isLoading = false) ∧
    c.messages.countP (fun m => m.id = aid) ≤ 1 ∧
    (c.id ≠ cid → ∀ m ∈ c.messages, m.id ≠ aid)

/-- A `sendMessage` oracle is benign at state `s` when the streaming
call succeeds and the generated assistant-message id is fresh (the
collision-resistance the identity generator is specified to provide). -/
def sendEnvOk (s : ChatState) (env : SendEnv) : Bool :=
  (match env.outcome with
   | .ok _ _ _ => true
   | .err _ => false) &&
  !((allMsgIds s).contains env.assistantMsgId) &&
  !(env.assistantMsgId == env.userMsgId)

/-- An operation is benign at state `s` when, if it is a `sendMessage`,
its oracle is benign there; the other operations carry no failure mode
relevant to the loading flag. -/
def opBenign (s : ChatState) : Op → Bool
  | .send _ env => sendEnvOk s env
  | _ => true

/-- A sequence of operations is benign when every `sendMessage` in it is
benign at the state where it runs. -/
def opsGood (s : ChatState) : List Op → Bool
  | [] => true
  | op :: rest => opBenign s op && opsGood (opFinal s op) rest

/-- Collapse the empty-array representation of "no sources" into the
absent one: the equivalence the round-trip property is stated up to. -/
def normalizeSources : Option (List String) → Option (List String)
  | some [] => none
  | o => o

/-- Modelled from the spec's data model: a domain `Message` is valid
when its id is a non-degenerate opaque string, its content may be empty
only while it is still being streamed, a loading flag appears only on
assistant messages, and an empty `sources` list is never carried
(absent is the normalized form). -/
def validMessage (m : Message) : Prop :=
  m.id ≠ "" ∧ (m.content = "" → m.isLoading = true) ∧
    (m.isLoading = true → m.type = .assistant) ∧ m.sources ≠ some []

instance (m : Message) : Decidable (validMessage m) := by
  unfold validMessage
  infer_instance

/-- A conversation used by several concrete scenarios. -/
def convA : Conversation :=
  { id := "c1", title := "T", messages := [], createdAt := 0, updatedAt := 0 }

/-- An authenticated store holding `convA`, selected. -/
def stateA : ChatState :=
  { conversations := [convA], currentConversationId := some "c1"
    isLoading := false, isAuthenticated := true }

/-- A `sendMessage` oracle whose streaming call throws after two
chunks. -/
def envErrA : SendEnv :=
  { now := 5, newConv := { id := "nc", now := 5, dbOk := true }
    userMsgId := "u1", userMsgDbOk := true, assistantMsgId := "a1"
    errorMsgId := "e1", outcome := .err ["par", "tial"] }

/-- A `sendMessage` oracle whose streaming call completes but whose
result carries no citation list. -/
def envOkNoSources : SendEnv :=
  { now := 5, newConv := { id := "nc", now := 5, dbOk := true }
    userMsgId := "u1", userMsgDbOk := true, assistantMsgId := "a1"
    errorMsgId := "e1", outcome := .ok ["Hello"] none true }

/-- A domain message that is valid per the spec's data model (an
assistant placeholder still streaming, hence empty content) but is
rejected by the persistence round-trip. -/
def emptyContentMsg : Message :=
  { id := "m0", type := .assistant, content := "", timestamp := 0
    isLoading := true, sources := none }

/-- A finalized message exercising the happy round-trip path. -/
def roundtripMsg : Message :=
  { id := "m1", type := .assistant, content := "hello", timestamp := 1234
    isLoading := false, sources := some ["s1", "s2"] }

/-- The second-run oracle for the loading-flag trace scenario. -/
def envSecondSend : SendEnv :=
  { now := 9, newConv := { id := "nc2", now := 9, dbOk := true }
    userMsgId := "u2", userMsgDbOk := true, assistantMsgId := "a2"
    errorMsgId := "e2", outcome := .ok ["done"] none true }

/-- Two consecutive `sendMessage` runs from a fresh unauthenticated
store, the first of which fails mid-stream. -/
def twoSendOps : List Op :=
  [.send "hi" envErrA, .send "yo" envSecondSend]

/-- A user message of a 25-message conversation. -/
def priorMsg (i : Nat) : Message :=
  { id := "p" ++ toString i, type := .user, content := "q" ++ toString i
    timestamp := i }

/-- A conversation with 25 prior messages. -/
def conv25 : Conversation :=
  { id := "c25", title := "T", messages := (List.range 25).map priorMsg
    createdAt := 0, updatedAt := 0 }

/-- An unauthenticated store holding `conv25`, selected. -/
def state25 : ChatState :=
  { conversations := [conv25], currentConversationId := some "c25"
    isLoading := false, isAuthenticated := false }

/-- An 80-character seed text. -/
def seed80 : String := String.mk (List.replicate 80 'x')

/-- A database message record with an unparsable timestamp. -/
def badTsMsg : DbMessage :=
  { id := "m9", conversation_id := "c9", user_id := "u9", type := "user"
    content := "hello", timestamp := .invalid "not-a-date", sources := .absent }

/-- A database conversation record with missing/unparsable dates. -/
def badTsConv : DbConversation :=
  { id := "c9", user_id := "u9", title := "T9"
    created_at := .missing, updated_at := .invalid "garbage" }

/-- A database conversation record whose updated_at alone is bad. -/
def oneBadTsConv : DbConversation :=
  { id := "c8", user_id := "u8", title := "T8"
    created_at := .valid 5, updated_at := .missing }

-- ## helper lemmas

theorem transformDbMessages_eq_filterMap (l : List DbMessage) :
    transformDbMessages l = l.filterMap transformDbMessage := by
  induction l with
  | nil => rfl
  | cons m rest ih =>
      simp only [transformDbMessages, List.filterMap_cons]
      cases h : transformDbMessage m <;> simp [h, ih]

theorem transformDbConversations_eq_filterMap (now : Nat) (l : List DbConversation) :
    transformDbConversations now l = l.filterMap (transformDbConversation now) := by
  induction l with
  | nil => rfl
  | cons c rest ih =>
      simp only [transformDbConversations, List.filterMap_cons]
      cases h : transformDbConversation now c <;> simp [h, ih]

theorem length_filterMap_sub {α β : Type} (f : α → Option β) (l : List α) :
    (l.filterMap f).length = l.length - l.countP fun a => (f a).isNone := by
  have h1 : (l.filterMap f).length = l.countP fun a => (f a).isSome := by
    induction l with
    | nil => rfl
    | cons a t ih =>
        simp only [List.filterMap_cons, List.countP_cons]
        cases h : f a <;> simp [h, ih]
  have h2 : l.countP (fun a => (f a).isSome) + l.countP (fun a => (f a).isNone) = l.length := by
    have h3 := List.length_eq_countP_add_countP (fun a => (f a).isSome) l
    have h4 : l.countP (fun a => ¬(f a).isSome) = l.countP fun a => (f a).isNone := by
      apply List.countP_congr
      intro a _
      cases f a <;> simp
    omega
  omega

-- ## C7

/-- C7: title derivation truncates. -/
theorem claim_c7 (s : String) :
    (s.length = 80 →
      (deriveTitle s).length = 50 ∧ deriveTitle s = strTake s 47 ++ "...") ∧
    (s.length ≤ 50 → deriveTitle s = s) := by
  constructor
  · intro h80
    have hgt : s.length > 50 := by omega
    have heq : deriveTitle s = strTake s 47 ++ "..." := by
      simp [deriveTitle, hgt]
    refine ⟨?_, heq⟩
    rw [heq, String.length_append]
    have : (strTake s 47).length = 47 := by
      show (s.data.take 47).length = 47
      rw [List.length_take]
      have : s.data.length = 80 := h80
      omega
    simp [this]
    decide
  · intro hle
    have : ¬ s.length > 50 := by omega
    simp [deriveTitle, this]

/-- C7 witness. -/
theorem claim_c7_witness :
    (deriveTitle seed80).length = 50 ∧ deriveTitle "hellohello" = "hellohello" :=
  ⟨((claim_c7 seed80).1 (by decide)).1, (claim_c7 "hellohello").2 (by decide)⟩

/-- C8: a conversation record with valid id and title but an unparsable
or missing created_at or updated_at (either one, or both) still
transforms, substituting now for each bad timestamp while a good one
keeps its parsed value; a message record with an unparsable or missing
timestamp is rejected outright. -/
theorem claim_c8 (c : DbConversation) (now : Nat) (m : DbMessage)
    (hid : c.id ≠ "") (htitle : c.title ≠ "")
    (_hbad : parseDate c.created_at = none ∨ parseDate c.updated_at = none)
    (hts : parseDate m.timestamp = none) :
    (∃ conv, transformDbConversation now c = some conv ∧
      conv.id = c.id ∧ conv.title = c.title ∧
      conv.createdAt = (parseDate c.created_at).getD now ∧
      conv.updatedAt = (parseDate c.updated_at).getD now ∧
      (parseDate c.created_at = none → conv.createdAt = now) ∧
      (parseDate c.updated_at = none → conv.updatedAt = now)) ∧
    transformDbMessage m = none := by
  constructor
  · refine ⟨{ id := c.id, title := c.title, messages := []
              createdAt := (parseDate c.created_at).getD now
              updatedAt := (parseDate c.updated_at).getD now },
      ?_, rfl, rfl, rfl, rfl, ?_, ?_⟩
    · simp [transformDbConversation, hid, htitle]
    · intro h
      show (parseDate c.created_at).getD now = now
      rw [h]
      rfl
    · intro h
      show (parseDate c.updated_at).getD now = now
      rw [h]
      rfl
  · unfold transformDbMessage
    split
    · rfl
    · split
      · rfl
      · rw [hts]

/-- C8 witness. -/
theorem claim_c8_witness :
    (∃ conv, transformDbConversation 777 oneBadTsConv = some conv ∧
      conv.id = oneBadTsConv.id ∧ conv.title = oneBadTsConv.title ∧
      conv.createdAt = (parseDate oneBadTsConv.created_at).getD 777 ∧
      conv.updatedAt = (parseDate oneBadTsConv.updated_at).getD 777 ∧
      (parseDate oneBadTsConv.created_at = none → conv.createdAt = 777) ∧
      (parseDate oneBadTsConv.updated_at = none → conv.updatedAt = 777)) ∧
    transformDbMessage badTsMsg = none :=
  claim_c8 oneBadTsConv 777 badTsMsg (by decide) (by decide)
    (Or.inr (by decide)) (by decide)

/-- C9: the batch transforms keep exactly the valid records, in order. -/
theorem claim_c9 (now : Nat) (lc : List DbConversation) (lm : List DbMessage) :
    transformDbConversations now lc = lc.filterMap (transformDbConversation now) ∧
    (transformDbConversations now lc).length =
      lc.length - lc.countP (fun c => (transformDbConversation now c).isNone) ∧
    transformDbMessages lm = lm.filterMap transformDbMessage ∧
    (transformDbMessages lm).length =
      lm.length - lm.countP fun m => (transformDbMessage m).isNone := by
  refine ⟨transformDbConversations_eq_filterMap now lc, ?_,
    transformDbMessages_eq_filterMap lm, ?_⟩
  · rw [transformDbConversations_eq_filterMap, length_filterMap_sub]
  · rw [transformDbMessages_eq_filterMap, length_filterMap_sub]

/-- C10: a whitespace-only input makes sendMessage a complete no-op. -/
theorem claim_c10 (s : ChatState) (content : String) (env : SendEnv)
    (h : strTrim content = "") :
    sendMessage s content env = ([], []) ∧ sendFinal s content env = s := by
  constructor
  · simp [sendMessage, h]
  · simp [sendFinal, finalState, sendMessage, h]

/-- C10 witness. -/
theorem claim_c10_witness :
    sendMessage stateA "   " envErrA = ([], []) ∧
    sendFinal stateA "   " envErrA = stateA :=
  claim_c10 stateA "   " envErrA (by decide)

/-- C4 counterexample: a spec-valid streaming message with empty content
is rejected by the round-trip. -/
theorem claim_c4_counterexample :
    validMessage emptyContentMsg ∧
    transformDbMessage (createDbMessage emptyContentMsg "c1" "u1") = none := by
  constructor
  · decide
  · decide

/-- C4 (amended): round-trip for valid messages with non-empty content. -/
theorem claim_c4 (m : Message) (cid uid : String)
    (hv : validMessage m) (hc : m.content ≠ "") :
    transformDbMessage (createDbMessage m cid uid) =
      some { id := m.id, type := m.type, content := m.content
             timestamp := m.timestamp, isLoading := false
             sources := normalizeSources m.sources } := by
  obtain ⟨hid, -, -, -⟩ := hv
  cases htype : m.type <;>
    rcases hsrc : m.sources with _ | ⟨_ | ⟨a, l⟩⟩ <;>
      simp [createDbMessage, transformDbMessage, roleOf, parseDate,
        parseJsonSafely, normalizeSources, hid, hc, htype, hsrc]

/-- C4 witness. -/
theorem claim_c4_witness :
    transformDbMessage (createDbMessage roundtripMsg "c1" "u1") =
      some { id := "m1", type := .assistant, content := "hello", timestamp := 1234
             isLoading := false, sources := some ["s1", "s2"] } := by
  have h := claim_c4 roundtripMsg "c1" "u1" (by decide) (by decide)
  simpa [roundtripMsg, normalizeSources] using h

/-- C5 counterexample: a successful streaming run whose provider result
carries no citations surfaces `sources = []` on the finalized message. -/
theorem claim_c5_counterexample :
    ∃ c ∈ (sendFinal stateA "hi" envOkNoSources).conversations,
      ∃ m ∈ c.messages, m.isLoading = false ∧ m.sources = some [] := by
  decide

/-- C2 counterexample: a failing streaming run appends the fixed error
message yet leaves the placeholder with `isLoading = true`. -/
theorem claim_c2_counterexample :
    ∃ c ∈ (sendFinal stateA "hi" envErrA).conversations,
      (∃ m ∈ c.messages, m.content = errorText ∧ m.isLoading = false) ∧
      ∃ m ∈ c.messages, m.isLoading = true := by
  decide

/-- C3 counterexample: after a failed run, a second send yields a state
with two loading messages in one conversation. -/
theorem claim_c3_counterexample :
    ∃ s ∈ runStates initialState twoSendOps,
      ∃ c ∈ s.conversations, 2 ≤ loadingCount c := by
  decide

/-- C1 counterexample: a failing second message-delete reports the error
but the conversation stays in the in-memory list. -/
theorem claim_c1_counterexample :
    convA ∈ (finalState stateA
        (deleteConversation stateA "c1" ["m1", "m2", "m3"] (some 2)).1).conversations ∧
    ExtCall.toast "Error" "Failed to delete conversation" ∈
      (deleteConversation stateA "c1" ["m1", "m2", "m3"] (some 2)).2 := by
  decide

/-- C6: with 25 prior messages the AI request holds exactly 21 entries,
the last 20 priors in order plus the new user message. -/
theorem claim_c6 (s : ChatState) (conv : Conversation) (cid content : String)
    (env : SendEnv)
    (hcur : s.currentConversationId = some cid)
    (hfind : s.conversations.find? (fun c => c.id = cid) = some conv)
    (hlen : conv.messages.length = 25)
    (hne : strTrim content ≠ "") :
    ExtCall.streamText (buildMessagesForAI conv.messages content) ∈
      (sendMessage s content env).2 ∧
    buildMessagesForAI conv.messages content =
      (conv.messages.drop 5).map
          (fun m => { role := roleOf m.type, content := m.content })
        ++ [{ role := "user", content := content }] ∧
    (buildMessagesForAI conv.messages content).length = 21 := by
  refine ⟨?_, ?_, ?_⟩
  · have hcore : ∀ (s' : ChatState),
        ExtCall.streamText (buildMessagesForAI conv.messages content) ∈
          (sendCore s' conv content env).2 := by
      intro s'
      unfold sendCore
      cases env.outcome <;> simp
    unfold sendMessage
    rw [if_neg hne, hcur]
    simp only [Option.bind]
    rw [hfind]
    exact hcore _
  · unfold buildMessagesForAI
    rw [hlen]
    rfl
  · unfold buildMessagesForAI
    simp [hlen, MAX_CONTEXT_MESSAGES]

/-- C6 witness. -/
theorem claim_c6_witness :
    ExtCall.streamText (buildMessagesForAI conv25.messages "next") ∈
      (sendMessage state25 "next" envSecondSend).2 ∧
    buildMessagesForAI conv25.messages "next" =
      (conv25.messages.drop 5).map
          (fun m => { role := roleOf m.type, content := m.content })
        ++ [{ role := "user", content := "next" }] ∧
    (buildMessagesForAI conv25.messages "next").length = 21 :=
  claim_c6 state25 conv25 "c25" "next" envSecondSend (by decide) (by decide)
    (by decide) (by decide)

/-- C1 (amended): a remote failure mid-sequence leaves the in-memory
state untouched and reports the error once. -/
theorem claim_c1 (s : ChatState) (id : String) (remoteMsgIds : List String) (k : Nat)
    (hauth : s.isAuthenticated = true) (hk : k < remoteMsgIds.length + 2) :
    (deleteConversation s id remoteMsgIds (some k)).1 = [] ∧
    finalState s (deleteConversation s id remoteMsgIds (some k)).1 = s ∧
    (deleteConversation s id remoteMsgIds (some k)).2.count
      (ExtCall.toast "Error" "Failed to delete conversation") = 1 := by
  have hcalls : (ExtCall.listMessages id ::
      remoteMsgIds.map ExtCall.deleteMessage ++ [ExtCall.deleteConversationDb id]).length
      = remoteMsgIds.length + 2 := by
    simp
  have hnotm : ExtCall.toast "Error" "Failed to delete conversation" ∉
      (ExtCall.listMessages id ::
        remoteMsgIds.map ExtCall.deleteMessage ++ [ExtCall.deleteConversationDb id]) := by
    intro hmem
    simp [List.mem_append, List.mem_map] at hmem
  unfold deleteConversation
  rw [hauth]
  simp only [if_true]
  rw [if_pos (by rw [hcalls]; exact hk)]
  refine ⟨rfl, rfl, ?_⟩
  rw [List.count_append]
  have h0 : (List.take (k + 1) (ExtCall.listMessages id ::
      remoteMsgIds.map ExtCall.deleteMessage ++ [ExtCall.deleteConversationDb id])).count
      (ExtCall.toast "Error" "Failed to delete conversation") = 0 := by
    rw [List.count_eq_zero]
    intro hmem
    exact hnotm (List.mem_of_mem_take hmem)
  rw [h0]
  rfl

/-- C1 witness. -/
theorem claim_c1_witness :
    (deleteConversation stateA "c1" ["m1", "m2", "m3"] (some 2)).1 = [] ∧
    finalState stateA (deleteConversation stateA "c1" ["m1", "m2", "m3"] (some 2)).1
      = stateA ∧
    (deleteConversation stateA "c1" ["m1", "m2", "m3"] (some 2)).2.count
      (ExtCall.toast "Error" "Failed to delete conversation") = 1 :=
  claim_c1 stateA "c1" ["m1", "m2", "m3"] 2 (by decide) (by decide)

-- ## tracking lemmas through sendCore

theorem map_eq_self_of_mem {α : Type} {l : List α} {f : α → α}
    (h : ∀ a ∈ l, f a = a) : l.map f = l := by
  induction l with
  | nil => rfl
  | cons a t ih =>
      simp only [List.map_cons, h a (List.mem_cons_self a t)]
      rw [ih fun x hx => h x (List.mem_cons_of_mem a hx)]

theorem overConv_track {s : ChatState} {cid : String} {f : Conversation → Conversation}
    {X Y : List Message}
    (h : ∃ c ∈ s.conversations, c.id = cid ∧ c.messages = X)
    (hf : ∀ c : Conversation, c.id = cid → c.messages = X →
      (f c).id = cid ∧ (f c).messages = Y) :
    ∃ c ∈ (overConv cid f s).conversations, c.id = cid ∧ c.messages = Y := by
  obtain ⟨c, hc, hcid, hmsg⟩ := h
  refine ⟨f c, ?_, (hf c hcid hmsg).1, (hf c hcid hmsg).2⟩
  unfold overConv
  simp only [List.mem_map]
  exact ⟨c, hc, by rw [if_pos hcid]⟩

theorem appendMsg_track {s : ChatState} {cid : String} {X : List Message}
    (h : ∃ c ∈ s.conversations, c.id = cid ∧ c.messages = X) (m : Message) (now : Nat) :
    ∃ c ∈ (appendMsg cid m now s).conversations, c.id = cid ∧ c.messages = X ++ [m] := by
  unfold appendMsg
  exact overConv_track h fun c hcid hmsg => ⟨hcid, by rw [hmsg]⟩

theorem stateAfterTitle_track {s : ChatState} {conv : Conversation}
    {content : String} {env : SendEnv} {X : List Message}
    (h : ∃ c ∈ (stateAfterUser s conv.id content env).conversations,
      c.id = conv.id ∧ c.messages = X) :
    ∃ c ∈ (stateAfterTitle s conv content env).conversations,
      c.id = conv.id ∧ c.messages = X := by
  unfold stateAfterTitle titleUpdated
  by_cases hlen : conv.messages.length = 0
  · rw [if_pos hlen]
    unfold updateConversationTitle
    simp only [List.getLastD]
    exact overConv_track h fun c hcid hmsg => ⟨hcid, by rw [hmsg]⟩
  · rw [if_neg hlen]
    simpa using h

theorem foldChunks_track (cid aid : String) (now : Nat) (chunks : List String) :
    ∀ (acc : String) (s : ChatState) (pre : List Message) (ph : Message),
      (∃ c ∈ s.conversations, c.id = cid ∧ c.messages = pre ++ [ph]) →
      (∀ m ∈ pre, m.id ≠ aid) → ph.id = aid → ph.isLoading = true → ph.content = acc →
      ∃ c ∈ (foldChunks cid aid now acc chunks s).1.conversations, c.id = cid ∧
        c.messages =
          pre ++ [{ ph with content := chunks.foldl (· ++ ·) acc, isLoading := true }] := by
  induction chunks with
  | nil =>
      intro acc s pre ph h hpre hid hload hcontent
      have hrec : ({ ph with content := acc, isLoading := true } : Message) = ph := by
        cases ph
        simp_all
      simpa [foldChunks, hrec] using h
  | cons ch rest ih =>
      intro acc s pre ph h hpre hid hload hcontent
      have hstep : ∃ c ∈ (applyChunk cid aid (acc ++ ch) now s).conversations,
          c.id = cid ∧ c.messages = pre ++ [{ ph with content := acc ++ ch, isLoading := true }] := by
        unfold applyChunk
        refine overConv_track h fun c hcid hmsg => ⟨hcid, ?_⟩
        show (c.messages.map _) = _
        rw [hmsg, List.map_append]
        congr 1
        · exact map_eq_self_of_mem fun m hm => by rw [if_neg (hpre m hm)]
        · simp [hid]
      have := ih (acc ++ ch) (applyChunk cid aid (acc ++ ch) now s) pre
        ({ ph with content := acc ++ ch, isLoading := true }) hstep hpre hid rfl rfl
      simpa [foldChunks] using this

theorem getLastD_append_two {α : Type} (l : List α) (a b d : α) :
    (l ++ [a, b]).getLastD d = b := by
  rw [show l ++ [a, b] = (l ++ [a]) ++ [b] by simp]
  exact List.getLastD_concat _ _ _

theorem sendCore_err_final (s : ChatState) (conv : Conversation) (content : String)
    (env : SendEnv) (chunks : List String) (hout : env.outcome = .err chunks) :
    finalState s (sendCore s conv content env).1 =
      { stateAfterError s conv content env chunks with isLoading := false } := by
  unfold sendCore
  rw [hout]
  exact getLastD_append_two _ _ _ _

theorem sendCore_ok_final (s : ChatState) (conv : Conversation) (content : String)
    (env : SendEnv) (chunks : List String) (srcs : Option (List String)) (dbOk : Bool)
    (hout : env.outcome = .ok chunks srcs dbOk) :
    finalState s (sendCore s conv content env).1 =
      { stateAfterFinalize s conv content env chunks srcs with isLoading := false } := by
  unfold sendCore
  rw [hout]
  exact getLastD_append_two _ _ _ _

theorem sendFinal_found (s : ChatState) (conv : Conversation) (cid content : String)
    (env : SendEnv)
    (hcur : s.currentConversationId = some cid)
    (hfind : s.conversations.find? (fun c => c.id = cid) = some conv)
    (hne : strTrim content ≠ "") :
    sendFinal s content env =
      finalState { s with isLoading := true }
        (sendCore { s with isLoading := true } conv content env).1 := by
  have hres : (s.currentConversationId.bind fun cid =>
      s.conversations.find? fun c => c.id = cid) = some conv := by
    rw [hcur]
    simp only [Option.bind]
    exact hfind
  unfold sendFinal sendMessage
  rw [if_neg hne, hres]
  dsimp only
  unfold finalState
  exact List.getLastD_cons _ _ _

/-- C2 (amended): a failing stream appends the fixed error message and
clears the busy flag, but the placeholder keeps `isLoading = true`. -/
theorem claim_c2 (s : ChatState) (conv : Conversation) (cid content : String)
    (env : SendEnv) (chunks : List String)
    (hcur : s.currentConversationId = some cid)
    (hfind : s.conversations.find? (fun c => c.id = cid) = some conv)
    (hne : strTrim content ≠ "")
    (hout : env.outcome = .err chunks)
    (hfresh : ∀ m ∈ conv.messages, m.id ≠ env.assistantMsgId)
    (huser : env.userMsgId ≠ env.assistantMsgId) :
    (sendFinal s content env).isLoading = false ∧
    ∃ c ∈ (sendFinal s content env).conversations, c.id = conv.id ∧
      c.messages.getLast? = some (errorMessageOf env) ∧
      ∃ m ∈ c.messages, m.id = env.assistantMsgId ∧ m.isLoading = true ∧
        m.content = chunks.foldl (· ++ ·) "" := by
  have hfin : sendFinal s content env =
      { stateAfterError { s with isLoading := true } conv content env chunks with
          isLoading := false } := by
    rw [sendFinal_found s conv cid content env hcur hfind hne]
    exact sendCore_err_final _ _ _ _ _ hout
  have hmem : conv ∈ ({ s with isLoading := true } : ChatState).conversations :=
    List.mem_of_find?_eq_some hfind
  have h0 : ∃ c ∈ ({ s with isLoading := true } : ChatState).conversations,
      c.id = conv.id ∧ c.messages = conv.messages := ⟨conv, hmem, rfl, rfl⟩
  have h1 : ∃ c ∈ (stateAfterUser { s with isLoading := true } conv.id content
        env).conversations,
      c.id = conv.id ∧ c.messages = conv.messages ++ [userMsgOf content env] :=
    appendMsg_track h0 (userMsgOf content env) env.now
  have h2 := stateAfterTitle_track h1
  have h3 : ∃ c ∈ (stateAfterPlaceholder { s with isLoading := true } conv content
        env).conversations,
      c.id = conv.id ∧ c.messages = (conv.messages ++ [userMsgOf content env]) ++
        [assistantPlaceholder env] :=
    appendMsg_track h2 (assistantPlaceholder env) env.now
  have hpre : ∀ m ∈ conv.messages ++ [userMsgOf content env],
      m.id ≠ env.assistantMsgId := by
    intro m hm
    rcases List.mem_append.mp hm with h | h
    · exact hfresh m h
    · rcases List.mem_singleton.mp h with rfl
      exact huser
  have h4 : ∃ c ∈ (streamFold { s with isLoading := true } conv content env
        chunks).1.conversations,
      c.id = conv.id ∧ c.messages = (conv.messages ++ [userMsgOf content env]) ++
        [{ assistantPlaceholder env with
            content := chunks.foldl (· ++ ·) "", isLoading := true }] :=
    foldChunks_track conv.id env.assistantMsgId env.now chunks "" _
      (conv.messages ++ [userMsgOf content env]) (assistantPlaceholder env)
      h3 hpre rfl rfl rfl
  have h5 := appendMsg_track h4 (errorMessageOf env) env.now
  rw [hfin]
  refine ⟨rfl, ?_⟩
  obtain ⟨c, hc, hcid2, hmsgs⟩ := h5
  refine ⟨c, hc, hcid2, ?_, ?_⟩
  · rw [hmsgs]
    exact List.getLast?_concat _
  · refine ⟨{ assistantPlaceholder env with
        content := chunks.foldl (· ++ ·) "", isLoading := true }, ?_, rfl, rfl, rfl⟩
    rw [hmsgs]
    exact List.mem_append_left _ (List.mem_append_right _ (List.mem_singleton.mpr rfl))

/-- C2 witness. -/
theorem claim_c2_witness :
    (sendFinal stateA "hi" envErrA).isLoading = false ∧
    ∃ c ∈ (sendFinal stateA "hi" envErrA).conversations, c.id = convA.id ∧
      c.messages.getLast? = some (errorMessageOf envErrA) ∧
      ∃ m ∈ c.messages, m.id = envErrA.assistantMsgId ∧ m.isLoading = true ∧
        m.content = (["par", "tial"] : List String).foldl (· ++ ·) "" :=
  claim_c2 stateA convA "c1" "hi" envErrA ["par", "tial"] (by decide) (by decide)
    (by decide) (by decide) (by decide) (by decide)

/-- C5 (amended): record transformation never surfaces an empty sources
list, but streaming finalization attaches the provider's citation list
verbatim, empty list included. -/
theorem claim_c5 :
    (∀ (r : DbMessage) (m : Message),
      transformDbMessage r = some m → m.sources ≠ some []) ∧
    ∀ (s : ChatState) (conv : Conversation) (cid content : String) (env : SendEnv)
      (chunks : List String) (srcs : Option (List String)) (dbOk : Bool),
      s.currentConversationId = some cid →
      s.conversations.find? (fun c => c.id = cid) = some conv →
      strTrim content ≠ "" →
      env.outcome = .ok chunks srcs dbOk →
      (∀ m ∈ conv.messages, m.id ≠ env.assistantMsgId) →
      env.userMsgId ≠ env.assistantMsgId →
      ∃ c ∈ (sendFinal s content env).conversations, c.id = conv.id ∧
        ∃ m ∈ c.messages, m.id = env.assistantMsgId ∧ m.isLoading = false ∧
          m.sources = some (srcs.getD []) := by
  constructor
  · intro r m h
    unfold transformDbMessage at h
    split at h
    · simp at h
    · split at h
      · simp at h
      · split at h
        · simp at h
        · rw [Option.some_inj] at h
          subst h
          dsimp only
          split
          · rename_i hlen
            intro hcon
            rw [Option.some_inj] at hcon
            rw [hcon] at hlen
            simp at hlen
          · simp
  · intro s conv cid content env chunks srcs dbOk hcur hfind hne hout hfresh huser
    have hfin : sendFinal s content env =
        { stateAfterFinalize { s with isLoading := true } conv content env chunks srcs
            with isLoading := false } := by
      rw [sendFinal_found s conv cid content env hcur hfind hne]
      exact sendCore_ok_final _ _ _ _ _ _ _ hout
    have hmem : conv ∈ ({ s with isLoading := true } : ChatState).conversations :=
      List.mem_of_find?_eq_some hfind
    have h0 : ∃ c ∈ ({ s with isLoading := true } : ChatState).conversations,
        c.id = conv.id ∧ c.messages = conv.messages := ⟨conv, hmem, rfl, rfl⟩
    have h1 : ∃ c ∈ (stateAfterUser { s with isLoading := true } conv.id content
          env).conversations,
        c.id = conv.id ∧ c.messages = conv.messages ++ [userMsgOf content env] :=
      appendMsg_track h0 (userMsgOf content env) env.now
    have h2 := stateAfterTitle_track h1
    have h3 : ∃ c ∈ (stateAfterPlaceholder { s with isLoading := true } conv content
          env).conversations,
        c.id = conv.id ∧ c.messages = (conv.messages ++ [userMsgOf content env]) ++
          [assistantPlaceholder env] :=
      appendMsg_track h2 (assistantPlaceholder env) env.now
    have hpre : ∀ m ∈ conv.messages ++ [userMsgOf content env],
        m.id ≠ env.assistantMsgId := by
      intro m hm
      rcases List.mem_append.mp hm with h | h
      · exact hfresh m h
      · rcases List.mem_singleton.mp h with rfl
        exact huser
    have h4 : ∃ c ∈ (streamFold { s with isLoading := true } conv content env
          chunks).1.conversations,
        c.id = conv.id ∧ c.messages = (conv.messages ++ [userMsgOf content env]) ++
          [{ assistantPlaceholder env with
              content := chunks.foldl (· ++ ·) "", isLoading := true }] :=
      foldChunks_track conv.id env.assistantMsgId env.now chunks "" _
        (conv.messages ++ [userMsgOf content env]) (assistantPlaceholder env)
        h3 hpre rfl rfl rfl
    have h5 : ∃ c ∈ (stateAfterFinalize { s with isLoading := true } conv content env
          chunks srcs).conversations,
        c.id = conv.id ∧ c.messages = (conv.messages ++ [userMsgOf content env]) ++
          [{ assistantPlaceholder env with
              content := (streamFold { s with isLoading := true } conv content env
                chunks).2.2,
              isLoading := false, sources := some (srcs.getD []) }] := by
      unfold stateAfterFinalize finalizeAssistant
      refine overConv_track h4 fun c hcid hmsg => ⟨hcid, ?_⟩
      show c.messages.map _ = _
      rw [hmsg, List.map_append]
      congr 1
      · exact map_eq_self_of_mem fun m hm => by rw [if_neg (hpre m hm)]
      · simp [assistantPlaceholder]
    rw [hfin]
    obtain ⟨c, hc, hcid2, hmsgs⟩ := h5
    refine ⟨c, hc, hcid2,
      ⟨{ assistantPlaceholder env with
          content := (streamFold { s with isLoading := true } conv content env
            chunks).2.2,
          isLoading := false, sources := some (srcs.getD []) }, ?_, rfl, rfl, rfl⟩⟩
    rw [hmsgs]
    exact List.mem_append_right _ (List.mem_singleton.mpr rfl)

/-- C5 witness. -/
theorem claim_c5_witness :
    ({ id := "m1", type := .assistant, content := "hello", timestamp := 1234
       isLoading := false, sources := some ["s1", "s2"] } : Message).sources ≠ some [] ∧
    ∃ c ∈ (sendFinal stateA "hi" envOkNoSources).conversations, c.id = convA.id ∧
      ∃ m ∈ c.messages, m.id = envOkNoSources.assistantMsgId ∧ m.isLoading = false ∧
        m.sources = some ((none : Option (List String)).getD []) :=
  ⟨claim_c5.1 (createDbMessage roundtripMsg "c1" "u1") _ (by decide),
   claim_c5.2 stateA convA "c1" "hi" envOkNoSources ["Hello"] none true (by decide)
     (by decide) (by decide) (by decide) (by decide) (by decide)⟩

-- ## loading-flag invariant machinery

theorem mem_overConv {c' : Conversation} {cid : String} {f : Conversation → Conversation}
    {s : ChatState} :
    c' ∈ (overConv cid f s).conversations ↔
      ∃ c ∈ s.conversations, c' = if c.id = cid then f c else c := by
  unfold overConv
  simp only [List.mem_map]
  constructor
  · rintro ⟨c, hc, rfl⟩
    exact ⟨c, hc, rfl⟩
  · rintro ⟨c, hc, rfl⟩
    exact ⟨c, hc, rfl⟩

theorem atMostOne_of_noLoading {s : ChatState} (h : noLoading s) : atMostOneLoading s := by
  intro c hc
  rw [h c hc]
  exact Nat.zero_le 1

theorem atMostOne_of_midStream {cid aid : String} {s : ChatState}
    (h : midStream cid aid s) : atMostOneLoading s := by
  intro c hc
  obtain ⟨h1, h2, -⟩ := h c hc
  refine le_trans (List.countP_mono_left ?_) h2
  intro m hm hp
  by_cases hid : m.id = aid
  · simpa using hid
  · rw [h1 m hm hid] at hp
    exact absurd hp (by simp)

theorem noLoading_overConv {s : ChatState} {cid : String} {f : Conversation → Conversation}
    (h : noLoading s)
    (hf : ∀ c ∈ s.conversations, c.id = cid → loadingCount c = 0 → loadingCount (f c) = 0) :
    noLoading (overConv cid f s) := by
  intro c' hc'
  rw [mem_overConv] at hc'
  obtain ⟨c, hc, rfl⟩ := hc'
  by_cases hcid : c.id = cid
  · rw [if_pos hcid]
    exact hf c hc hcid (h c hc)
  · rw [if_neg hcid]
    exact h c hc

theorem noLoading_appendMsg {s : ChatState} {cid : String} {m : Message} {now : Nat}
    (h : noLoading s) (hm : m.isLoading = false) :
    noLoading (appendMsg cid m now s) := by
  unfold appendMsg
  refine noLoading_overConv h fun c _ _ h0 => ?_
  show (c.messages ++ [m]).countP (fun m => m.isLoading) = 0
  rw [List.countP_append]
  unfold loadingCount at h0
  simp [h0, List.countP_cons, hm]

theorem noLoading_filter {s : ChatState} (h : noLoading s) (p : Conversation → Bool) :
    noLoading { s with conversations := s.conversations.filter p } := by
  intro c hc
  exact h c (List.mem_of_mem_filter hc)

theorem aidFree_of_not_mem {aid : String} {s : ChatState}
    (h : aid ∉ allMsgIds s) : aidFree aid s := by
  intro c hc m hm hid
  apply h
  unfold allMsgIds
  rw [List.mem_flatMap]
  exact ⟨c, hc, by rw [List.mem_map]; exact ⟨m, hm, hid⟩⟩

theorem aidFree_overConv {s : ChatState} {cid aid : String} {f : Conversation → Conversation}
    (h : aidFree aid s)
    (hf : ∀ c ∈ s.conversations, c.id = cid → (∀ m ∈ c.messages, m.id ≠ aid) →
      ∀ m ∈ (f c).messages, m.id ≠ aid) :
    aidFree aid (overConv cid f s) := by
  intro c' hc'
  rw [mem_overConv] at hc'
  obtain ⟨c, hc, rfl⟩ := hc'
  by_cases hcid : c.id = cid
  · rw [if_pos hcid]
    exact hf c hc hcid (h c hc)
  · rw [if_neg hcid]
    exact h c hc

theorem aidFree_appendMsg {s : ChatState} {cid aid : String} {m : Message} {now : Nat}
    (h : aidFree aid s) (hm : m.id ≠ aid) :
    aidFree aid (appendMsg cid m now s) := by
  unfold appendMsg
  refine aidFree_overConv h fun c _ _ hall m' hm' => ?_
  rcases List.mem_append.mp hm' with hh | hh
  · exact hall m' hh
  · rcases List.mem_singleton.mp hh with rfl
    exact hm

theorem noLoading_stateAfterUser {s : ChatState} {cid content : String} {env : SendEnv}
    (h : noLoading s) : noLoading (stateAfterUser s cid content env) :=
  noLoading_appendMsg h rfl

theorem aidFree_stateAfterUser {s : ChatState} {cid content : String} {env : SendEnv}
    {aid : String} (h : aidFree aid s) (hm : env.userMsgId ≠ aid) :
    aidFree aid (stateAfterUser s cid content env) :=
  aidFree_appendMsg h hm

theorem noLoading_stateAfterTitle {s : ChatState} {conv : Conversation}
    {content : String} {env : SendEnv}
    (h : noLoading (stateAfterUser s conv.id content env)) :
    noLoading (stateAfterTitle s conv content env) := by
  unfold stateAfterTitle titleUpdated
  by_cases hlen : conv.messages.length = 0
  · rw [if_pos hlen]
    unfold updateConversationTitle
    simp only [List.getLastD]
    exact noLoading_overConv h fun c _ _ h0 => h0
  · rw [if_neg hlen]
    simpa using h

theorem aidFree_stateAfterTitle {s : ChatState} {conv : Conversation}
    {content : String} {env : SendEnv} {aid : String}
    (h : aidFree aid (stateAfterUser s conv.id content env)) :
    aidFree aid (stateAfterTitle s conv content env) := by
  unfold stateAfterTitle titleUpdated
  by_cases hlen : conv.messages.length = 0
  · rw [if_pos hlen]
    unfold updateConversationTitle
    simp only [List.getLastD]
    exact aidFree_overConv h fun c _ _ hall => hall
  · rw [if_neg hlen]
    simpa using h

theorem countP_eq_zero_of_all {l : List Message} {aid : String}
    (h : ∀ m ∈ l, m.id ≠ aid) : l.countP (fun m => m.id = aid) = 0 := by
  rw [List.countP_eq_zero]
  intro m hm
  simpa using h m hm

theorem midStream_placeholder {s : ChatState} {cid aid : String} {m : Message} {now : Nat}
    (hq : noLoading s) (hfree : aidFree aid s) (hm : m.id = aid) :
    midStream cid aid (appendMsg cid m now s) := by
  intro c' hc'
  unfold appendMsg at hc'
  rw [mem_overConv] at hc'
  obtain ⟨c, hc, rfl⟩ := hc'
  have hnl := hq c hc
  have hids := hfree c hc
  by_cases hcid : c.id = cid
  · rw [if_pos hcid]
    refine ⟨?_, ?_, ?_⟩
    · intro m' hm' hneq
      rcases List.mem_append.mp hm' with hh | hh
      · have := List.countP_eq_zero.mp hnl m' hh
        simpa using this
      · rcases List.mem_singleton.mp hh with rfl
        exact absurd hm hneq
    · show ((c.messages ++ [m]).countP fun m => m.id = aid) ≤ 1
      rw [List.countP_append, countP_eq_zero_of_all hids]
      simp [List.countP_cons, hm]
    · intro hne
      exact absurd hcid hne
  · rw [if_neg hcid]
    refine ⟨?_, ?_, fun _ => hids⟩
    · intro m' hm' _
      have := List.countP_eq_zero.mp hnl m' hm'
      simpa using this
    · rw [countP_eq_zero_of_all hids]
      exact Nat.zero_le 1

theorem midStream_applyChunk {s : ChatState} {cid aid : String} {acc : String} {now : Nat}
    (h : midStream cid aid s) :
    midStream cid aid (applyChunk cid aid acc now s) := by
  intro c' hc'
  unfold applyChunk at hc'
  rw [mem_overConv] at hc'
  obtain ⟨c, hc, rfl⟩ := hc'
  obtain ⟨h1, h2, h3⟩ := h c hc
  by_cases hcid : c.id = cid
  · rw [if_pos hcid]
    refine ⟨?_, ?_, ?_⟩
    · intro m' hm' hneq
      obtain ⟨m, hm, rfl⟩ := List.mem_map.mp hm'
      by_cases hid : m.id = aid
      · rw [if_pos hid] at hneq
        exact absurd hid hneq
      · rw [if_neg hid] at hneq ⊢
        exact h1 m hm hid
    · dsimp only
      rw [List.countP_map]
      refine le_trans (le_of_eq (List.countP_congr ?_)) h2
      intro m _
      by_cases hid : m.id = aid
      · simp [hid]
      · simp [hid]
    · intro hne
      exact absurd hcid hne
  · rw [if_neg hcid]
    exact ⟨h1, h2, h3⟩

theorem midStream_foldChunks (cid aid : String) (now : Nat) :
    ∀ (chunks : List String) (acc : String) (s : ChatState),
      midStream cid aid s →
      midStream cid aid (foldChunks cid aid now acc chunks s).1 ∧
      ∀ s' ∈ (foldChunks cid aid now acc chunks s).2.1, midStream cid aid s' := by
  intro chunks
  induction chunks with
  | nil =>
      intro acc s h
      exact ⟨h, by simp [foldChunks]⟩
  | cons ch rest ih =>
      intro acc s h
      have hstep := @midStream_applyChunk s cid aid (acc ++ ch) now h
      have hrest := ih (acc ++ ch) (applyChunk cid aid (acc ++ ch) now s) hstep
      constructor
      · simpa [foldChunks] using hrest.1
      · intro s' hs'
        simp only [foldChunks, List.mem_cons] at hs'
        rcases hs' with rfl | hs'
        · exact hstep
        · exact hrest.2 s' hs'

theorem noLoading_finalize {s : ChatState} {cid aid text : String}
    {srcs : List String} {now : Nat}
    (h : midStream cid aid s) :
    noLoading (finalizeAssistant cid aid text srcs now s) := by
  intro c' hc'
  unfold finalizeAssistant at hc'
  rw [mem_overConv] at hc'
  obtain ⟨c, hc, rfl⟩ := hc'
  obtain ⟨h1, h2, h3⟩ := h c hc
  by_cases hcid : c.id = cid
  · rw [if_pos hcid]
    unfold loadingCount
    dsimp only
    rw [List.countP_eq_zero]
    intro m' hm'
    obtain ⟨m, hm, rfl⟩ := List.mem_map.mp hm'
    by_cases hid : m.id = aid
    · rw [if_pos hid]
      simp
    · rw [if_neg hid]
      simp [h1 m hm hid]
  · rw [if_neg hcid]
    unfold loadingCount
    rw [List.countP_eq_zero]
    intro m hm
    simp [h1 m hm (h3 hcid m hm)]

theorem mem_titleUpdated {s : ChatState} {conv : Conversation} {content : String}
    {env : SendEnv} {s' : ChatState} (h : s' ∈ titleUpdated s conv content env) :
    s' = stateAfterTitle s conv content env := by
  unfold titleUpdated at h
  unfold stateAfterTitle titleUpdated
  by_cases hlen : conv.messages.length = 0
  · rw [if_pos hlen] at h ⊢
    unfold updateConversationTitle at h ⊢
    simp only [List.getLastD]
    simpa using h
  · rw [if_neg hlen] at h
    simp at h

theorem sendCore_ok_invariant (s : ChatState) (conv : Conversation) (content : String)
    (env : SendEnv) (chunks : List String) (srcs : Option (List String)) (dbOk : Bool)
    (hout : env.outcome = .ok chunks srcs dbOk)
    (hq : noLoading s) (hfree : aidFree env.assistantMsgId s)
    (hneq : env.userMsgId ≠ env.assistantMsgId) :
    (∀ s' ∈ (sendCore s conv content env).1, atMostOneLoading s') ∧
    noLoading (finalState s (sendCore s conv content env).1) := by
  have hA : noLoading (stateAfterUser s conv.id content env) :=
    noLoading_stateAfterUser hq
  have hfA : aidFree env.assistantMsgId (stateAfterUser s conv.id content env) :=
    aidFree_stateAfterUser hfree hneq
  have hB : noLoading (stateAfterTitle s conv content env) :=
    noLoading_stateAfterTitle hA
  have hfB : aidFree env.assistantMsgId (stateAfterTitle s conv content env) :=
    aidFree_stateAfterTitle hfA
  have hC : midStream conv.id env.assistantMsgId
      (stateAfterPlaceholder s conv content env) := by
    unfold stateAfterPlaceholder
    exact midStream_placeholder hB hfB rfl
  have hfold := midStream_foldChunks conv.id env.assistantMsgId env.now chunks ""
    (stateAfterPlaceholder s conv content env) hC
  have hD : midStream conv.id env.assistantMsgId
      (streamFold s conv content env chunks).1 := hfold.1
  have hK : ∀ s' ∈ (streamFold s conv content env chunks).2.1,
      midStream conv.id env.assistantMsgId s' := hfold.2
  have hE : noLoading (stateAfterFinalize s conv content env chunks srcs) := by
    unfold stateAfterFinalize
    exact noLoading_finalize hD
  constructor
  · intro s' hs'
    unfold sendCore at hs'
    rw [hout] at hs'
    simp only [List.mem_append, List.mem_cons, List.not_mem_nil, or_false] at hs'
    rcases hs' with ((((rfl | h) | rfl) | h) | rfl | rfl)
    · exact atMostOne_of_noLoading hA
    · have := mem_titleUpdated h
      subst this
      exact atMostOne_of_noLoading hB
    · exact atMostOne_of_midStream hC
    · exact atMostOne_of_midStream (hK s' h)
    · exact atMostOne_of_noLoading hE
    · exact atMostOne_of_noLoading fun c hc => hE c hc
  · rw [sendCore_ok_final s conv content env chunks srcs dbOk hout]
    exact fun c hc => hE c hc

theorem createNewConversation_messages (auth : Bool) (env : NewConvEnv) :
    (createNewConversation auth env).1.messages = [] := by
  unfold createNewConversation
  split
  · split <;> rfl
  · rfl

theorem getLastD_cases {α : Type} (l : List α) (d : α) :
    l.getLastD d = d ∨ l.getLastD d ∈ l := by
  induction l generalizing d with
  | nil => exact Or.inl rfl
  | cons a t ih =>
      rw [List.getLastD_cons]
      rcases ih a with h | h
      · right
        rw [h]
        exact List.mem_cons_self a t
      · right
        exact List.mem_cons_of_mem a h

theorem noLoading_finalState {s : ChatState} {l : List ChatState}
    (h : noLoading s) (hl : ∀ s' ∈ l, noLoading s') : noLoading (finalState s l) := by
  unfold finalState
  rcases getLastD_cases l s with heq | hmem
  · rw [heq]
    exact h
  · exact hl _ hmem

theorem noLoading_prepend_fresh {s : ChatState} (hq : noLoading s) (auth : Bool)
    (env : NewConvEnv) :
    noLoading { s with conversations := (createNewConversation auth env).1 ::
      s.conversations } := by
  intro c hc
  rcases List.mem_cons.mp hc with rfl | hc
  · unfold loadingCount
    rw [createNewConversation_messages]
    rfl
  · exact hq c hc

theorem sendEnvOk_elim {s : ChatState} {env : SendEnv} (hb : sendEnvOk s env = true) :
    (∃ chunks srcs dbOk, env.outcome = .ok chunks srcs dbOk) ∧
    env.assistantMsgId ∉ allMsgIds s ∧
    env.userMsgId ≠ env.assistantMsgId := by
  unfold sendEnvOk at hb
  rw [Bool.and_eq_true, Bool.and_eq_true] at hb
  obtain ⟨⟨houtb, hcont⟩, hneqb⟩ := hb
  refine ⟨?_, ?_, ?_⟩
  · cases henv : env.outcome with
    | ok chunks srcs dbOk => exact ⟨chunks, srcs, dbOk, rfl⟩
    | err c =>
        rw [henv] at houtb
        simp at houtb
  · rw [Bool.not_eq_true'] at hcont
    simp at hcont
    exact hcont
  · rw [Bool.not_eq_true'] at hneqb
    intro heq
    rw [heq] at hneqb
    simp at hneqb

theorem applyOp_invariant (s : ChatState) (op : Op)
    (hq : noLoading s) (hb : opBenign s op = true) :
    (∀ s' ∈ (applyOp s op).1, atMostOneLoading s') ∧ noLoading (opFinal s op) := by
  cases op with
  | startNew env =>
      have hall : ∀ s' ∈ (applyOp s (.startNew env)).1, noLoading s' := by
        intro s' hs'
        unfold applyOp startNewConversation at hs'
        simp only [List.mem_cons, List.not_mem_nil, or_false] at hs'
        rcases hs' with rfl | rfl
        · exact noLoading_prepend_fresh hq _ _
        · exact fun c hc => noLoading_prepend_fresh hq s.isAuthenticated env c hc
      exact ⟨fun s' hs' => atMostOne_of_noLoading (hall s' hs'),
        noLoading_finalState hq hall⟩
  | select id =>
      have hall : ∀ s' ∈ (applyOp s (.select id)).1, noLoading s' := by
        intro s' hs'
        unfold applyOp selectConversation at hs'
        simp only [List.mem_cons, List.not_mem_nil, or_false] at hs'
        subst hs'
        exact fun c hc => hq c hc
      exact ⟨fun s' hs' => atMostOne_of_noLoading (hall s' hs'),
        noLoading_finalState hq hall⟩
  | deleteConv id remoteMsgIds failAt =>
      have hall : ∀ s' ∈ (applyOp s (.deleteConv id remoteMsgIds failAt)).1,
          noLoading s' := by
        intro s' hs'
        have happ : applyOp s (Op.deleteConv id remoteMsgIds failAt) =
            deleteConversation s id remoteMsgIds failAt := rfl
        rw [happ] at hs'
        have hconvs : s'.conversations =
            s.conversations.filter fun c => ¬ c.id = id := by
          unfold deleteConversation at hs'
          dsimp only at hs'
          repeat' split at hs'
          all_goals
            first
              | (simp only [List.mem_cons, List.not_mem_nil, or_false] at hs'
                 rcases hs' with rfl | rfl <;> simp)
              | simp at hs'
        intro c hc
        rw [hconvs] at hc
        exact hq c (List.mem_of_mem_filter hc)
      exact ⟨fun s' hs' => atMostOne_of_noLoading (hall s' hs'),
        noLoading_finalState hq hall⟩
  | send content env =>
      have hb' := sendEnvOk_elim hb
      obtain ⟨⟨chunks, srcs, dbOk, hout⟩, hnot, hneq⟩ := hb'
      by_cases hne : strTrim content = ""
      · have hsm : sendMessage s content env = ([], []) := by
          unfold sendMessage
          rw [if_pos hne]
        have happ : applyOp s (Op.send content env) = sendMessage s content env := rfl
        constructor
        · intro s' hs'
          rw [happ, hsm] at hs'
          simp at hs'
        · unfold opFinal
          rw [happ, hsm]
          exact hq
      · cases hres : (s.currentConversationId.bind fun cid =>
            s.conversations.find? fun c => c.id = cid) with
        | some conv =>
            have hsm : sendMessage s content env =
                (({ s with isLoading := true } : ChatState) ::
                  (sendCore { s with isLoading := true } conv content env).1,
                 (sendCore { s with isLoading := true } conv content env).2) := by
              unfold sendMessage
              rw [if_neg hne, hres]
            have hq0 : noLoading ({ s with isLoading := true } : ChatState) :=
              fun c hc => hq c hc
            have hfree0 : aidFree env.assistantMsgId
                ({ s with isLoading := true } : ChatState) :=
              aidFree_of_not_mem hnot
            have hcore := sendCore_ok_invariant { s with isLoading := true } conv
              content env chunks srcs dbOk hout hq0 hfree0 hneq
            have happ : applyOp s (Op.send content env) = sendMessage s content env := rfl
            constructor
            · intro s' hs'
              rw [happ, hsm] at hs'
              rcases List.mem_cons.mp hs' with rfl | hs'
              · exact atMostOne_of_noLoading hq0
              · exact hcore.1 s' hs'
            · unfold opFinal
              rw [happ, hsm]
              show noLoading ((({ s with isLoading := true } : ChatState) ::
                (sendCore { s with isLoading := true } conv content env).1).getLastD s)
              rw [List.getLastD_cons]
              exact hcore.2
        | none =>
            have hsm : sendMessage s content env =
                (({ s with isLoading := true } : ChatState) ::
                  ({ s with
                      isLoading := true
                      conversations :=
                        (createNewConversation s.isAuthenticated env.newConv).1 ::
                          s.conversations } : ChatState) ::
                  ({ s with
                      isLoading := true
                      conversations :=
                        (createNewConversation s.isAuthenticated env.newConv).1 ::
                          s.conversations
                      currentConversationId :=
                        some (createNewConversation s.isAuthenticated
                          env.newConv).1.id } : ChatState) ::
                  (sendCore
                    { s with
                        isLoading := true
                        conversations :=
                          (createNewConversation s.isAuthenticated env.newConv).1 ::
                            s.conversations
                        currentConversationId :=
                          some (createNewConversation s.isAuthenticated
                            env.newConv).1.id }
                    (createNewConversation s.isAuthenticated env.newConv).1
                    content env).1,
                 (createNewConversation s.isAuthenticated env.newConv).2 ++
                  (sendCore
                    { s with
                        isLoading := true
                        conversations :=
                          (createNewConversation s.isAuthenticated env.newConv).1 ::
                            s.conversations
                        currentConversationId :=
                          some (createNewConversation s.isAuthenticated
                            env.newConv).1.id }
                    (createNewConversation s.isAuthenticated env.newConv).1
                    content env).2) := by
              unfold sendMessage
              rw [if_neg hne, hres]
            have hq1 : noLoading ({ s with
                isLoading := true
                conversations := (createNewConversation s.isAuthenticated
                  env.newConv).1 :: s.conversations } : ChatState) := by
              intro c hc
              rcases List.mem_cons.mp hc with rfl | hc'
              · unfold loadingCount
                rw [createNewConversation_messages]
                rfl
              · exact hq c hc'
            have hq2 : noLoading ({ s with
                isLoading := true
                conversations := (createNewConversation s.isAuthenticated
                  env.newConv).1 :: s.conversations
                currentConversationId := some (createNewConversation
                  s.isAuthenticated env.newConv).1.id } : ChatState) :=
              fun c hc => hq1 c hc
            have hfree2 : aidFree env.assistantMsgId ({ s with
                isLoading := true
                conversations := (createNewConversation s.isAuthenticated
                  env.newConv).1 :: s.conversations
                currentConversationId := some (createNewConversation
                  s.isAuthenticated env.newConv).1.id } : ChatState) := by
              intro c hc m hm
              rcases List.mem_cons.mp hc with rfl | hc'
              · rw [createNewConversation_messages] at hm
                simp at hm
              · exact aidFree_of_not_mem hnot c hc' m hm
            have hcore := sendCore_ok_invariant
              { s with
                  isLoading := true
                  conversations := (createNewConversation s.isAuthenticated
                    env.newConv).1 :: s.conversations
                  currentConversationId := some (createNewConversation
                    s.isAuthenticated env.newConv).1.id }
              (createNewConversation s.isAuthenticated env.newConv).1
              content env chunks srcs dbOk hout hq2 hfree2 hneq
            have happ : applyOp s (Op.send content env) = sendMessage s content env := rfl
            constructor
            · intro s' hs'
              rw [happ, hsm] at hs'
              rcases List.mem_cons.mp hs' with rfl | hs'
              · exact atMostOne_of_noLoading fun c hc => hq c hc
              · rcases List.mem_cons.mp hs' with rfl | hs'
                · exact atMostOne_of_noLoading hq1
                · rcases List.mem_cons.mp hs' with rfl | hs'
                  · exact atMostOne_of_noLoading hq2
                  · exact hcore.1 s' hs'
            · unfold opFinal
              rw [happ, hsm]
              show noLoading (List.getLastD _ s)
              rw [List.getLastD_cons, List.getLastD_cons, List.getLastD_cons]
              exact hcore.2

/-- C3 (amended): along any benign operation sequence (streaming always
completes, generated ids fresh), every reachable state keeps at most
one loading message per conversation. -/
theorem claim_c3 (s0 : ChatState) (ops : List Op)
    (hq : noLoading s0) (hgood : opsGood s0 ops = true) :
    ∀ s ∈ runStates s0 ops, atMostOneLoading s := by
  induction ops generalizing s0 with
  | nil =>
      intro s hs
      unfold runStates traceStates at hs
      simp only [List.mem_singleton] at hs
      subst hs
      exact atMostOne_of_noLoading hq
  | cons op rest ih =>
      intro s hs
      unfold opsGood at hgood
      rw [Bool.and_eq_true] at hgood
      obtain ⟨hben, hrest⟩ := hgood
      have hop := applyOp_invariant s0 op hq hben
      unfold runStates traceStates at hs
      rcases List.mem_cons.mp hs with rfl | hs'
      · exact atMostOne_of_noLoading hq
      · rcases List.mem_append.mp hs' with h | h
        · exact hop.1 s h
        · exact ih (opFinal s0 op) hop.2 hrest s (List.mem_cons_of_mem _ h)

/-- C3 witness. -/
theorem claim_c3_witness :
    atMostOneLoading (opFinal initialState (Op.send "ok" envSecondSend)) :=
  claim_c3 initialState [Op.send "ok" envSecondSend] (by decide) (by decide)
    (opFinal initialState (Op.send "ok" envSecondSend)) (by decide)
